import Mathlib

/-!
Shallow embedding of the bounded-concurrency batch task executor of
junler/concurrency-template, and proofs of the specification claims.

The repository contains three near-duplicate instances of one fan-out /
fan-in pattern:

* `test/demo/demo_test.go` — `BatchTaskProcessor.ProcessTasks` (aggregate
  report, batch-level timeout is a terminal error) and
  `BatchTaskProcessor.ProcessTasksSimple` (fast-fail variant), modelled in
  namespace `BatchDemo`;
* `backend/services/batch_service.go` (shipped verbatim inside
  `test/simple/simple_test.go` in this snapshot) — the three service
  operations `BatchProcessOrders` / `BatchCallAPIs` / `BatchProcessFiles`,
  which share one collector/report shape and differ only in the per-task
  work function; modelled generically in namespace `BatchService` and
  instantiated for the order service;
* a small interleaving semantics for the worker pools, namespace
  `PoolModel`, used for the concurrency-ceiling claims.

Concurrency is embedded by making every scheduling decision an explicit
parameter: each worker's single emission is a pure function of its task and
of whether the shared cancellation scope had already expired at its
admission check, and the collector consumes an explicit list of events (the
order in which channel receives / timer firings / context cancellation are
observed).  Sleeps and wall-clock durations are elided: they influence only
which schedules occur, never what a given schedule produces.
-/

namespace BatchDemo

/-- `demo_test.go` `Order`. -/
structure Order where
  id : Nat
  name : String
  deriving Repr, DecidableEq

/-- `demo_test.go` `OrderWithSeq`: a result tagged with the task's position.
Go's `error` is modelled as `Option String` (`none` = nil error). -/
structure OrderWithSeq where
  seq : Nat
  order : Order
  error : Option String
  deriving Repr, DecidableEq

/-- `demo_test.go` `OrderTask`: the fields that control `Execute`'s
behaviour (`Duration` only delays, it never changes the outcome, so it is
elided). -/
structure OrderTask where
  id : Nat
  name : String
  shouldError : Bool
  shouldPanic : Bool
  deriving Repr, DecidableEq

/-- Outcome of one invocation of `OrderTask.Execute`: either a normal
return of `(Order, error)`, or a panic carrying the panic value. -/
inductive ExecOutcome where
  | normal (order : Order) (error : Option String)
  | panicked (val : String)
  deriving Repr, DecidableEq

def panicVal (id : Nat) : String := "task " ++ toString id ++ " panicked"

def failedMsg (id : Nat) : String := "task " ++ toString id ++ " failed"

def orderLabel (name : String) (id : Nat) : String :=
  "Order_" ++ name ++ "_" ++ toString id

/-- `demo_test.go` `OrderTask.Execute`: sleeps, then panics if
`ShouldPanic`, else fails if `ShouldError`, else returns the order. -/
def OrderTask.execute (t : OrderTask) : ExecOutcome :=
  if t.shouldPanic then .panicked (panicVal t.id)
  else if t.shouldError then .normal ⟨0, ""⟩ (some (failedMsg t.id))
  else .normal ⟨t.id, orderLabel t.name t.id⟩ none

def timeoutMsg (id : Nat) : String := "task " ++ toString id ++ " timeout"

def panicMsg (id : Nat) (r : String) : String :=
  "task " ++ toString id ++ " panic: " ++ r

/-- What one worker goroutine of `ProcessTasks` sends on `resultCh`,
together with whether it invoked `Execute`.  `ranExecute` records the fact
(observable in the source control flow) that the admission-timeout branch
returns before the `t.Execute()` call. -/
structure WorkerEmit where
  result : OrderWithSeq
  ranExecute : Bool
  deriving Repr, DecidableEq

/-- Body of the worker goroutine launched by `ProcessTasks` for `(seq, t)`:
one non-blocking check of `timeoutCtx` (`admissionExpired` says whether it
had already fired), then `Execute`, with the deferred `recover` converting
a panic into a failed result tagged with `t.GetID()`.  Every control path
sends exactly one `OrderWithSeq`. -/
def demoWorker (admissionExpired : Bool) (seq : Nat) (t : OrderTask) : WorkerEmit :=
  if admissionExpired then
    ⟨⟨seq, ⟨0, ""⟩, some (timeoutMsg t.id)⟩, false⟩
  else
    match t.execute with
    | .panicked r => ⟨⟨seq, ⟨0, ""⟩, some (panicMsg t.id r)⟩, true⟩
    | .normal o e => ⟨⟨seq, o, e⟩, true⟩

/-- The emissions of the workers launched by the `for i, task := range
tasks` loop of `ProcessTasks`, sequence numbers starting at `k`.
`adm i` says whether worker `i` observed the cancellation scope as already
expired at its admission check (a schedule-dependent fact, hence a
parameter). -/
def demoEmits (adm : Nat → Bool) : Nat → List OrderTask → List WorkerEmit
  | _, [] => []
  | k, t :: ts => demoWorker (adm k) k t :: demoEmits adm (k + 1) ts

/-- One event observed by the collector loop of `ProcessTasks`: a receive
on `resultCh`, the batch timer firing, or the caller's context being
cancelled (carrying the `ctx.Err()` message). -/
inductive CollectorEvent where
  | recv (r : OrderWithSeq)
  | timerFired
  | ctxDone (msg : String)
  deriving Repr, DecidableEq

def batchTimeoutMsg : String := "batch processing timeout"

/-- The collector loop of `ProcessTasks` (`for i := 0; i < taskNum; i++`
with a three-way `select`): consume `fuel` events, appending received
results in arrival order, short-circuiting with a batch-level error when
the timer or the context fires first.  The `[]` case models the loop
blocking forever; it is unreachable for any schedule that contains every
worker's send, since each of the `taskNum` workers sends exactly once. -/
def collectLoop : Nat → List CollectorEvent → Except String (List OrderWithSeq)
  | 0, _ => .ok []
  | n + 1, .recv r :: rest => (collectLoop n rest).map (r :: ·)
  | _ + 1, .timerFired :: _ => .error batchTimeoutMsg
  | _ + 1, .ctxDone m :: _ => .error m
  | _ + 1, [] => .error "blocked"

/-- The order relation used by `sort.Sort(BySeq(results))`. -/
def seqLE (a b : OrderWithSeq) : Prop := a.seq ≤ b.seq

instance : DecidableRel seqLE := fun a b => Nat.decLe a.seq b.seq

instance : IsTrans OrderWithSeq seqLE := ⟨fun _ _ _ => Nat.le_trans⟩

instance : IsTotal OrderWithSeq seqLE := ⟨fun a b => Nat.le_total a.seq b.seq⟩

/-- `sort.Sort(BySeq(results))`.  Go's sort is an unstable comparison sort;
any sort producing a `seqLE`-sorted permutation is an exact model of it on
the inputs that occur here (all `seq` values distinct, so the sorted
permutation is unique).  `insertionSort` is used because it is structurally
recursive, hence evaluable by `decide`. -/
def sortBySeq (rs : List OrderWithSeq) : List OrderWithSeq :=
  List.insertionSort seqLE rs

/-- `demo_test.go` `ProcessTasksResult` (the wall-clock `Duration` field is
elided). -/
structure ProcessTasksResult where
  orders : List Order
  errors : List String
  successCount : Nat
  errorCount : Nat
  deriving Repr, DecidableEq

/-- The partition loop of `ProcessTasks` (lines 187-195): walk the results
in order, appending failures to `errors` and successes to `orders`. -/
def partitionResults : List OrderWithSeq → ProcessTasksResult
  | [] => ⟨[], [], 0, 0⟩
  | r :: rs =>
    let rest := partitionResults rs
    match r.error with
    | some e => ⟨rest.orders, e :: rest.errors, rest.successCount, rest.errorCount + 1⟩
    | none => ⟨r.order :: rest.orders, rest.errors, rest.successCount + 1, rest.errorCount⟩

/-- `demo_test.go` `BatchTaskProcessor.ProcessTasks`: empty input returns a
zero report immediately; otherwise collect `len(tasks)` results (or fail
with a batch-level error), sort by sequence when `KeepOrder` is set, and
partition into the aggregate report.  `events` is the schedule of what the
collector observes. -/
def processTasks (keepOrder : Bool) (tasks : List OrderTask)
    (events : List CollectorEvent) : Except String ProcessTasksResult :=
  if tasks.length = 0 then .ok ⟨[], [], 0, 0⟩
  else
    match collectLoop tasks.length events with
    | .error e => .error e
    | .ok results =>
      let ordered := if keepOrder then sortBySeq results else results
      .ok (partitionResults ordered)

/-- What one worker goroutine of `ProcessTasksSimple` sends: the order on
`orderCh` on success, the error on `errCh` on failure, the recovered panic
message on `errCh` on panic. -/
inductive SimpleEmit where
  | order (o : Order)
  | err (e : String)
  deriving Repr, DecidableEq

/-- Body of the worker goroutine of `ProcessTasksSimple`. -/
def simpleWorker (t : OrderTask) : SimpleEmit :=
  match t.execute with
  | .panicked r => .err (panicMsg t.id r)
  | .normal _ (some e) => .err e
  | .normal o none => .order o

def simpleEmits (ts : List OrderTask) : List SimpleEmit := ts.map simpleWorker

/-- One event observed by the collector loop of `ProcessTasksSimple`. -/
inductive SimpleEvent where
  | gotOrder (o : Order)
  | gotErr (e : String)
  | timerFired
  | ctxDone (msg : String)
  deriving Repr, DecidableEq

/-- The collector loop of `ProcessTasksSimple`: first error (or panic)
received wins and is returned as the whole call's error; the timer and the
context likewise short-circuit.  `[]` models blocking, unreachable for
schedules containing every worker's send. -/
def collectSimple : Nat → List SimpleEvent → Except String (List Order)
  | 0, _ => .ok []
  | n + 1, .gotOrder o :: rest => (collectSimple n rest).map (o :: ·)
  | _ + 1, .gotErr e :: _ => .error e
  | _ + 1, .timerFired :: _ => .error batchTimeoutMsg
  | _ + 1, .ctxDone m :: _ => .error m
  | _ + 1, [] => .error "blocked"

/-- `demo_test.go` `BatchTaskProcessor.ProcessTasksSimple` (unordered,
fast-fail variant): a distinct operation that returns only the successful
orders, or the first error observed. -/
def processTasksSimple (tasks : List OrderTask)
    (events : List SimpleEvent) : Except String (List Order) :=
  if tasks.length = 0 then .ok []
  else collectSimple tasks.length events

end BatchDemo

namespace BatchService

/-- `batch_service.go` `TaskResult` (the wall-clock `Duration` field is
elided).  `data` is the `interface{}` payload (`none` = nil), `error` the
error string (`""` omitted = `none`). -/
structure TaskResult (δ : Type) where
  id : Nat
  success : Bool
  data : Option δ
  error : Option String
  deriving Repr

/-- `batch_service.go` `BatchResult` (wall-clock `Duration` elided). -/
structure BatchResult (δ : Type) where
  totalTasks : Nat
  successTasks : Nat
  failedTasks : Nat
  results : List (TaskResult δ)
  deriving Repr

/-- The error string the service workers report on the admission-timeout
path ("task timed out"). -/
def chTimeoutMsg : String := "任务超时"

/-- Body of the worker goroutine shared by `BatchProcessOrders`,
`BatchCallAPIs` and `BatchProcessFiles` (they differ only in `run`, the
per-task work function: `ProcessOrder`, `CallAPI`, `ProcessFile`):
acquire the semaphore, one non-blocking check of `ctx` (`admissionExpired`
says whether it had already fired), then `run`; `ID` is the task's index
in the input slice.  Every control path sends exactly one `TaskResult`. -/
def worker (run : τ → Except String δ) (admissionExpired : Bool)
    (index : Nat) (task : τ) : TaskResult δ :=
  if admissionExpired then
    { id := index, success := false, data := none, error := some chTimeoutMsg }
  else
    match run task with
    | .ok d => { id := index, success := true, data := some d, error := none }
    | .error e => { id := index, success := false, data := none, error := some e }

/-- The emissions of the workers launched by the `for i, task := range
tasks` loop, indices starting at `k`. -/
def emits (run : τ → Except String δ) (adm : Nat → Bool) :
    Nat → List τ → List (TaskResult δ)
  | _, [] => []
  | k, t :: ts => worker run (adm k) k t :: emits run adm (k + 1) ts

/-- One event observed by the service collector loop: a receive on
`resultCh`, the channel reporting closed (all workers done and buffer
drained), the batch timer firing, or the caller's context firing. -/
inductive Event (δ : Type) where
  | recv (r : TaskResult δ)
  | closed
  | timerFired
  | ctxDone

/-- The service collector loop (`for { select { ... } }` ending in `goto
DONE`): append received results in arrival order; channel closure, the
timer or the context each jump to `DONE`, keeping whatever was collected
so far.  `[]` models blocking, unreachable for schedules that end with
`closed`, `timerFired` or `ctxDone`. -/
def collect : List (Event δ) → List (TaskResult δ)
  | [] => []
  | .recv r :: rest => r :: collect rest
  | .closed :: _ => []
  | .timerFired :: _ => []
  | .ctxDone :: _ => []

/-- The order relation used by `sort.Slice(results, ... ID < ID)`. -/
def idLE (a b : TaskResult δ) : Prop := a.id ≤ b.id

instance : DecidableRel (@idLE δ) := fun a b => Nat.decLe a.id b.id

instance : IsTrans (TaskResult δ) idLE := ⟨fun _ _ _ => Nat.le_trans⟩

instance : IsTotal (TaskResult δ) idLE := ⟨fun a b => Nat.le_total a.id b.id⟩

/-- `sort.Slice(results, func(i, j int) bool { return results[i].ID <
results[j].ID })`.  Go's `sort.Slice` is an unstable comparison sort; any
sort producing an `idLE`-sorted permutation models it exactly on the
inputs that occur here (all `ID`s distinct). -/
def sortById (rs : List (TaskResult δ)) : List (TaskResult δ) :=
  List.insertionSort idLE rs

set_option linter.unusedVariables false in
/-- The service batch operation shape shared by `BatchProcessOrders`,
`BatchCallAPIs` and `BatchProcessFiles`: empty input returns a zero-valued
report at once (no workers; the collected results are constrained to the
workers' emissions through the theorems' schedule-validity hypotheses, so
`run` appears here only to mirror the service's signature); otherwise
collect until the channel closes or the deadline/cancellation fires, count
successes during collection, sort by `ID`, and return `FailedTasks :=
totalTasks - successCount`.  Note that a deadline here truncates `results`
but still yields a report. -/
def batchRun (run : τ → Except String δ) (tasks : List τ)
    (events : List (Event δ)) : BatchResult δ :=
  if tasks.length = 0 then
    { totalTasks := 0, successTasks := 0, failedTasks := 0, results := [] }
  else
    let results := collect events
    let successCount := (results.filter (·.success)).length
    { totalTasks := tasks.length
      successTasks := successCount
      failedTasks := tasks.length - successCount
      results := sortById results }

/-- `batch_service.go` `OrderTask`. -/
structure OrderTask where
  id : Nat
  customerId : String
  productName : String
  quantity : Nat
  price : Float
  deriving Repr

/-- The success payload built by `ProcessOrder` (the `processed_at`
timestamp is elided). -/
structure OrderData where
  orderId : Nat
  customerId : String
  productName : String
  quantity : Nat
  unitPrice : Float
  totalPrice : Float
  status : String
  deriving Repr

def stockMsg (id : Nat) : String := "订单 " ++ toString id ++ " 库存不足"

/-- `batch_service.go` `OrderProcessService.ProcessOrder`: sleeps, fails
("out of stock") when `ID % 7 == 0`, otherwise returns the priced order. -/
def processOrder (o : OrderTask) : Except String OrderData :=
  if o.id % 7 = 0 then .error (stockMsg o.id)
  else
    .ok { orderId := o.id
          customerId := o.customerId
          productName := o.productName
          quantity := o.quantity
          unitPrice := o.price
          totalPrice := o.price * Float.ofNat o.quantity
          status := "processed" }

/-- `batch_service.go` `OrderProcessService.BatchProcessOrders` is
`batchRun` instantiated with `ProcessOrder`. -/
def batchProcessOrders (orders : List OrderTask)
    (events : List (Event OrderData)) : BatchResult OrderData :=
  batchRun processOrder orders events

end BatchService

namespace PoolModel

/-- Phase of one worker goroutine: not yet at the semaphore, holding a
semaphore slot (bookkeeping before/after `Execute`), inside `Execute`, or
finished (slot released). -/
inductive WPhase where
  | idle
  | holding
  | executing
  | finished
  deriving Repr, DecidableEq

/-- Whether a phase holds a semaphore slot. -/
def holdsSlot : WPhase → Bool
  | .holding => true
  | .executing => true
  | _ => false

/-- Whether a phase is inside the `Execute` body. -/
def inExecute : WPhase → Bool
  | .executing => true
  | _ => false

def heldCount (ps : List WPhase) : Nat := ps.countP holdsSlot

def execCount (ps : List WPhase) : Nat := ps.countP inExecute

/-- One interleaving step of the semaphore-gated worker pool of the
service operations (`semaphore := make(chan struct{}, s.MaxConcurrency)`):
a worker may acquire a slot only when fewer than `cap` slots are held
(`semaphore <- struct{}{}` blocks otherwise), may then enter `Execute`, and
releases its slot on the way out (`defer func() { <-semaphore }()`) both on
the normal path and on the admission-timeout path that skips `Execute`. -/
inductive SemStep (cap : Nat) : List WPhase → List WPhase → Prop
  | acquire (ps : List WPhase) (i : Nat) (hi : ps[i]? = some .idle)
      (hc : heldCount ps < cap) : SemStep cap ps (ps.set i .holding)
  | beginExec (ps : List WPhase) (i : Nat) (hi : ps[i]? = some .holding) :
      SemStep cap ps (ps.set i .executing)
  | finishTask (ps : List WPhase) (i : Nat) (hi : ps[i]? = some .executing) :
      SemStep cap ps (ps.set i .finished)
  | admitExpired (ps : List WPhase) (i : Nat) (hi : ps[i]? = some .holding) :
      SemStep cap ps (ps.set i .finished)

/-- States of the semaphore-gated pool reachable from `n` workers all
launched and none yet admitted. -/
def Reachable (cap n : Nat) (ps : List WPhase) : Prop :=
  Relation.ReflTransGen (SemStep cap) (List.replicate n WPhase.idle) ps

/-- One interleaving step of the worker pool of
`BatchTaskProcessor.ProcessTasks`, which launches one goroutine per task
with no semaphore and never consults `MaxConcurrency`: any launched worker
may enter `Execute` at any time. -/
inductive FreeStep : List WPhase → List WPhase → Prop
  | beginTask (ps : List WPhase) (i : Nat) (hi : ps[i]? = some .idle) :
      FreeStep ps (ps.set i .executing)
  | endTask (ps : List WPhase) (i : Nat) (hi : ps[i]? = some .executing) :
      FreeStep ps (ps.set i .finished)

end PoolModel

namespace PoolModel

lemma countP_set_comm {α : Type} (p : α → Bool) :
    ∀ (l : List α) (i : Nat) (w v : α), l[i]? = some w →
      (l.set i v).countP p + (if p w then 1 else 0) =
        l.countP p + (if p v then 1 else 0) := by
  intro l
  induction l with
  | nil => intro i w v h; simp at h
  | cons a t ih =>
    intro i w v h
    cases i with
    | zero =>
      rw [List.getElem?_cons_zero] at h
      obtain rfl : a = w := Option.some.inj h
      cases hpa : p a <;> cases hpv : p v <;>
        simp [List.countP_cons, hpa, hpv]
    | succ i =>
      rw [List.getElem?_cons_succ] at h
      have h2 := ih i w v h
      cases hpa : p a <;>
        simp [List.countP_cons, hpa] <;> omega

lemma exec_le_held (ps : List WPhase) : execCount ps ≤ heldCount ps := by
  apply List.countP_mono_left
  intro a _ h
  cases a <;> simp_all [inExecute, holdsSlot]

lemma heldCount_replicate_idle (n : Nat) :
    heldCount (List.replicate n WPhase.idle) = 0 := by
  simp [heldCount, List.countP_replicate, holdsSlot]

lemma SemStep.held_le {cap : Nat} {ps qs : List WPhase} (h : SemStep cap ps qs)
    (hle : heldCount ps ≤ cap) : heldCount qs ≤ cap := by
  cases h with
  | acquire i hi hc =>
    have h2 := countP_set_comm holdsSlot ps i _ WPhase.holding hi
    simp [holdsSlot] at h2
    simp only [heldCount] at hc hle ⊢
    omega
  | beginExec i hi =>
    have h2 := countP_set_comm holdsSlot ps i _ WPhase.executing hi
    simp [holdsSlot] at h2
    simp only [heldCount] at hle ⊢
    omega
  | finishTask i hi =>
    have h2 := countP_set_comm holdsSlot ps i _ WPhase.finished hi
    simp [holdsSlot] at h2
    simp only [heldCount] at hle ⊢
    omega
  | admitExpired i hi =>
    have h2 := countP_set_comm holdsSlot ps i _ WPhase.finished hi
    simp [holdsSlot] at h2
    simp only [heldCount] at hle ⊢
    omega

lemma reachable_held_le {cap n : Nat} {ps : List WPhase}
    (h : Reachable cap n ps) : heldCount ps ≤ cap := by
  unfold Reachable at h
  induction h with
  | refl => rw [heldCount_replicate_idle]; exact Nat.zero_le cap
  | tail _ hstep ih => exact hstep.held_le ih

end PoolModel

namespace BatchDemo

lemma demoWorker_seq (b : Bool) (k : Nat) (t : OrderTask) :
    (demoWorker b k t).result.seq = k := by
  cases b with
  | true => rfl
  | false =>
    cases h : t.execute with
    | normal o e => simp [demoWorker, h]
    | panicked r => simp [demoWorker, h]

lemma demoEmits_length (adm : Nat → Bool) (k : Nat) (ts : List OrderTask) :
    (demoEmits adm k ts).length = ts.length := by
  induction ts generalizing k with
  | nil => rfl
  | cons t ts ih => simp [demoEmits, ih]

lemma demoEmits_map_seq (adm : Nat → Bool) (k : Nat) (ts : List OrderTask) :
    (demoEmits adm k ts).map (fun e => e.result.seq) = List.range' k ts.length := by
  induction ts generalizing k with
  | nil => rfl
  | cons t ts ih => simp [demoEmits, List.range', ih, demoWorker_seq]

lemma demoEmits_getElem (adm : Nat → Bool) (k : Nat) (ts : List OrderTask) (i : Nat) :
    (demoEmits adm k ts)[i]? =
      (ts[i]?).map (fun t => demoWorker (adm (k + i)) (k + i) t) := by
  induction ts generalizing k i with
  | nil => simp [demoEmits]
  | cons t ts ih =>
    cases i with
    | zero => simp [demoEmits]
    | succ i =>
      simp only [demoEmits, List.getElem?_cons_succ, ih (k + 1) i]
      have hk : k + 1 + i = k + (i + 1) := by omega
      rw [hk]

lemma partitionResults_counts (rs : List OrderWithSeq) :
    (partitionResults rs).orders.length = (partitionResults rs).successCount ∧
    (partitionResults rs).errors.length = (partitionResults rs).errorCount ∧
    (partitionResults rs).successCount + (partitionResults rs).errorCount = rs.length := by
  induction rs with
  | nil => simp [partitionResults]
  | cons r rs ih =>
    obtain ⟨ih1, ih2, ih3⟩ := ih
    cases h : r.error <;> simp [partitionResults, h, ih1, ih2] <;> omega

lemma collectLoop_stop :
    ∀ (pre : List CollectorEvent) (n : Nat) (rest : List CollectorEvent) (m : String),
      (∀ e ∈ pre, ∃ r, e = CollectorEvent.recv r) → pre.length < n →
      collectLoop n (pre ++ CollectorEvent.timerFired :: rest) = .error batchTimeoutMsg ∧
      collectLoop n (pre ++ CollectorEvent.ctxDone m :: rest) = .error m := by
  intro pre
  induction pre with
  | nil =>
    intro n rest m _ hlen
    cases n with
    | zero => omega
    | succ n => exact ⟨rfl, rfl⟩
  | cons e pre ih =>
    intro n rest m hall hlen
    obtain ⟨r, rfl⟩ := hall e (List.mem_cons_self e pre)
    cases n with
    | zero => simp at hlen
    | succ n =>
      have hlen2 : pre.length < n := by
        simp only [List.length_cons] at hlen
        omega
      have hih := ih n rest m (fun x hx => hall x (List.mem_cons_of_mem _ hx)) hlen2
      constructor
      · show (collectLoop n (pre ++ CollectorEvent.timerFired :: rest)).map _ = _
        rw [hih.1]
        rfl
      · show (collectLoop n (pre ++ CollectorEvent.ctxDone m :: rest)).map _ = _
        rw [hih.2]
        rfl

lemma collectSimple_stop :
    ∀ (pre : List SimpleEvent) (n : Nat) (rest : List SimpleEvent) (e : String),
      (∀ x ∈ pre, ∃ o, x = SimpleEvent.gotOrder o) → pre.length < n →
      collectSimple n (pre ++ SimpleEvent.gotErr e :: rest) = .error e := by
  intro pre
  induction pre with
  | nil =>
    intro n rest e _ hlen
    cases n with
    | zero => omega
    | succ n => rfl
  | cons x pre ih =>
    intro n rest e hall hlen
    obtain ⟨o, rfl⟩ := hall x (List.mem_cons_self x pre)
    cases n with
    | zero => simp at hlen
    | succ n =>
      have hlen2 : pre.length < n := by
        simp only [List.length_cons] at hlen
        omega
      have hih := ih n rest e (fun y hy => hall y (List.mem_cons_of_mem _ hy)) hlen2
      show (collectSimple n (pre ++ SimpleEvent.gotErr e :: rest)).map _ = _
      rw [hih]
      rfl

end BatchDemo

namespace BatchService

lemma worker_id (run : τ → Except String δ) (b : Bool) (k : Nat) (t : τ) :
    (worker run b k t).id = k := by
  cases b with
  | true => rfl
  | false =>
    cases h : run t with
    | ok d => simp [worker, h]
    | error e => simp [worker, h]

lemma emits_length (run : τ → Except String δ) (adm : Nat → Bool) (k : Nat)
    (ts : List τ) : (emits run adm k ts).length = ts.length := by
  induction ts generalizing k with
  | nil => rfl
  | cons t ts ih => simp [emits, ih]

lemma emits_map_id (run : τ → Except String δ) (adm : Nat → Bool) (k : Nat)
    (ts : List τ) :
    (emits run adm k ts).map (fun r => r.id) = List.range' k ts.length := by
  induction ts generalizing k with
  | nil => rfl
  | cons t ts ih => simp [emits, List.range', ih, worker_id]

lemma countP_not_add {α : Type} (p : α → Bool) (l : List α) :
    l.countP p + l.countP (fun a => !p a) = l.length := by
  induction l with
  | nil => rfl
  | cons a t ih =>
    cases h : p a <;> simp [List.countP_cons, h] <;> omega

end BatchService

/-- C4 (amended): in the semaphore-gated worker pool used by the three
service batch operations (`BatchProcessOrders` / `BatchCallAPIs` /
`BatchProcessFiles`, which gate the work body behind `semaphore :=
make(chan struct{}, s.MaxConcurrency)`), every state reachable from the
launch state has at most `cap = MaxConcurrency` workers inside `Execute`
at any instant, independent of the number `n` of tasks. -/
theorem C4_semaphore_bounds_execute {cap n : Nat} {ps : List PoolModel.WPhase}
    (h : PoolModel.Reachable cap n ps) : PoolModel.execCount ps ≤ cap :=
  le_trans (PoolModel.exec_le_held ps) (PoolModel.reachable_held_le h)

/-- Witness for C4: with `MaxConcurrency = 1` and two workers, the state in
which worker 0 has acquired the slot and entered `Execute` is reachable,
and the theorem bounds its `Execute` occupancy by 1. -/
theorem C4_semaphore_bounds_execute_witness :
    PoolModel.execCount [PoolModel.WPhase.executing, PoolModel.WPhase.idle] ≤ 1 := by
  have s1 : PoolModel.SemStep 1 [PoolModel.WPhase.idle, PoolModel.WPhase.idle]
      [PoolModel.WPhase.holding, PoolModel.WPhase.idle] :=
    PoolModel.SemStep.acquire [PoolModel.WPhase.idle, PoolModel.WPhase.idle] 0 rfl (by decide)
  have s2 : PoolModel.SemStep 1 [PoolModel.WPhase.holding, PoolModel.WPhase.idle]
      [PoolModel.WPhase.executing, PoolModel.WPhase.idle] :=
    PoolModel.SemStep.beginExec [PoolModel.WPhase.holding, PoolModel.WPhase.idle] 0 rfl
  have hreach : PoolModel.Reachable 1 2
      [PoolModel.WPhase.executing, PoolModel.WPhase.idle] :=
    Relation.ReflTransGen.tail (Relation.ReflTransGen.tail Relation.ReflTransGen.refl s1) s2
  exact C4_semaphore_bounds_execute hreach

/-- C4 counterexample: `BatchTaskProcessor.ProcessTasks` launches one
goroutine per task and never consults `MaxConcurrency` (no semaphore
appears in its body), so with `MaxConcurrency = 1` and two tasks the pool
reaches a state with both workers inside `Execute` simultaneously —
refuting "at most maxConcurrency tasks are concurrently inside their
Execute bodies" for that batch operation. -/
theorem C4_demo_ignores_limit_counterexample :
    Relation.ReflTransGen PoolModel.FreeStep
      (List.replicate 2 PoolModel.WPhase.idle)
      [PoolModel.WPhase.executing, PoolModel.WPhase.executing] ∧
    1 < PoolModel.execCount [PoolModel.WPhase.executing, PoolModel.WPhase.executing] := by
  constructor
  · have s1 : PoolModel.FreeStep [PoolModel.WPhase.idle, PoolModel.WPhase.idle]
        [PoolModel.WPhase.executing, PoolModel.WPhase.idle] :=
      PoolModel.FreeStep.beginTask [PoolModel.WPhase.idle, PoolModel.WPhase.idle] 0 rfl
    have s2 : PoolModel.FreeStep [PoolModel.WPhase.executing, PoolModel.WPhase.idle]
        [PoolModel.WPhase.executing, PoolModel.WPhase.executing] :=
      PoolModel.FreeStep.beginTask [PoolModel.WPhase.executing, PoolModel.WPhase.idle] 1 rfl
    exact Relation.ReflTransGen.tail (Relation.ReflTransGen.tail Relation.ReflTransGen.refl s1) s2
  · decide

/-- C1 (amended): for `BatchTaskProcessor.ProcessTasks` (and likewise
`processBatchOrders`), if the batch timer or the caller's context fires
while fewer than `len(tasks)` results have been received, the call returns
a distinct batch-level error and no report at all.  (The three service
operations do NOT obey this: they return a partial report instead, see the
counterexample.) -/
theorem C1_demo_timeout_is_terminal_error (keepOrder : Bool)
    (tasks : List BatchDemo.OrderTask)
    (pre rest : List BatchDemo.CollectorEvent) (m : String)
    (hpre : ∀ e ∈ pre, ∃ r, e = BatchDemo.CollectorEvent.recv r)
    (hlen : pre.length < tasks.length) :
    BatchDemo.processTasks keepOrder tasks
        (pre ++ BatchDemo.CollectorEvent.timerFired :: rest) =
      .error BatchDemo.batchTimeoutMsg ∧
    BatchDemo.processTasks keepOrder tasks
        (pre ++ BatchDemo.CollectorEvent.ctxDone m :: rest) = .error m := by
  have h0 : ¬ tasks.length = 0 := by omega
  have h := BatchDemo.collectLoop_stop pre tasks.length rest m hpre hlen
  constructor
  · unfold BatchDemo.processTasks
    rw [if_neg h0, h.1]
  · unfold BatchDemo.processTasks
    rw [if_neg h0, h.2]

/-- Witness for C1: two tasks, the collector receives worker 0's result and
then the timer (respectively the context) fires; the call returns the
batch-level error, discarding the already-received result. -/
theorem C1_demo_timeout_witness :
    BatchDemo.processTasks true [⟨1, "A", false, false⟩, ⟨2, "B", false, false⟩]
        ([BatchDemo.CollectorEvent.recv
            (BatchDemo.demoWorker false 0 ⟨1, "A", false, false⟩).result] ++
          BatchDemo.CollectorEvent.timerFired :: []) =
      .error BatchDemo.batchTimeoutMsg ∧
    BatchDemo.processTasks true [⟨1, "A", false, false⟩, ⟨2, "B", false, false⟩]
        ([BatchDemo.CollectorEvent.recv
            (BatchDemo.demoWorker false 0 ⟨1, "A", false, false⟩).result] ++
          BatchDemo.CollectorEvent.ctxDone "context canceled" :: []) =
      .error "context canceled" :=
  C1_demo_timeout_is_terminal_error true
    [⟨1, "A", false, false⟩, ⟨2, "B", false, false⟩]
    [BatchDemo.CollectorEvent.recv
      (BatchDemo.demoWorker false 0 ⟨1, "A", false, false⟩).result]
    [] "context canceled"
    (fun x hx => by rw [List.mem_singleton] at hx; exact ⟨_, hx⟩)
    (by decide)

/-- C1 counterexample: `OrderProcessService.BatchProcessOrders` (and its
two siblings) violates the claim: with two orders and a timer firing after
one result was received, it returns a `BatchResult` — not an error — whose
`Results` list is missing a result (1 of 2) lost to the deadline. -/
theorem C1_service_partial_report_counterexample :
    (BatchService.batchProcessOrders
        [⟨1, "c1", "p1", 1, 1.0⟩, ⟨2, "c2", "p2", 1, 1.0⟩]
        [BatchService.Event.recv
          (BatchService.worker BatchService.processOrder false 0 ⟨1, "c1", "p1", 1, 1.0⟩),
         BatchService.Event.timerFired]).totalTasks = 2 ∧
    (BatchService.batchProcessOrders
        [⟨1, "c1", "p1", 1, 1.0⟩, ⟨2, "c2", "p2", 1, 1.0⟩]
        [BatchService.Event.recv
          (BatchService.worker BatchService.processOrder false 0 ⟨1, "c1", "p1", 1, 1.0⟩),
         BatchService.Event.timerFired]).results.length = 1 := by
  constructor
  · rfl
  · rfl

/-- C3: every worker of `ProcessTasks` emits exactly one result — the
emission list has exactly one entry per task, whose sequence numbers are
exactly `0, …, total-1` — and on any schedule on which the collector
receives all `len(tasks)` results (no batch-level timeout/cancellation,
`res` being the arrival order, a permutation of the emissions), the call
returns a report containing exactly one entry per input task:
`len(orders) + len(errors) = total`. -/
theorem C3_one_result_per_task (adm : Nat → Bool) (keepOrder : Bool)
    (tasks : List BatchDemo.OrderTask)
    (events : List BatchDemo.CollectorEvent) (res : List BatchDemo.OrderWithSeq)
    (hcol : BatchDemo.collectLoop tasks.length events = .ok res)
    (hperm : res.Perm ((BatchDemo.demoEmits adm 0 tasks).map (fun e => e.result))) :
    (BatchDemo.demoEmits adm 0 tasks).map (fun e => e.result.seq) =
      List.range tasks.length ∧
    ∃ r, BatchDemo.processTasks keepOrder tasks events = .ok r ∧
      r.orders.length + r.errors.length = tasks.length := by
  constructor
  · rw [BatchDemo.demoEmits_map_seq]
    exact (List.range_eq_range' tasks.length).symm
  · have hlen : res.length = tasks.length := by
      have h := hperm.length_eq
      rw [List.length_map, BatchDemo.demoEmits_length] at h
      exact h
    by_cases h0 : tasks.length = 0
    · refine ⟨⟨[], [], 0, 0⟩, ?_, ?_⟩
      · unfold BatchDemo.processTasks
        rw [if_pos h0]
      · simpa using h0.symm
    · refine ⟨BatchDemo.partitionResults
        (if keepOrder then BatchDemo.sortBySeq res else res), ?_, ?_⟩
      · unfold BatchDemo.processTasks
        rw [if_neg h0, hcol]
      · obtain ⟨hc1, hc2, hc3⟩ := BatchDemo.partitionResults_counts
          (if keepOrder then BatchDemo.sortBySeq res else res)
        have hlen2 :
            (if keepOrder then BatchDemo.sortBySeq res else res).length = res.length := by
          cases keepOrder with
          | true =>
            exact (List.perm_insertionSort BatchDemo.seqLE res).length_eq
          | false => rfl
        omega

/-- Witness for C3: three tasks exercising the normal, error and panic
paths; the collector receives all three results in emission order. -/
theorem C3_one_result_per_task_witness :
    (BatchDemo.demoEmits (fun _ => false) 0
        [⟨1, "A", false, false⟩, ⟨2, "B", true, false⟩, ⟨3, "C", false, true⟩]).map
        (fun e => e.result.seq) = List.range 3 ∧
    ∃ r, BatchDemo.processTasks true
        [⟨1, "A", false, false⟩, ⟨2, "B", true, false⟩, ⟨3, "C", false, true⟩]
        (((BatchDemo.demoEmits (fun _ => false) 0
            [⟨1, "A", false, false⟩, ⟨2, "B", true, false⟩, ⟨3, "C", false, true⟩]).map
          (fun e : BatchDemo.WorkerEmit => e.result)).map BatchDemo.CollectorEvent.recv) = .ok r ∧
      r.orders.length + r.errors.length = 3 :=
  C3_one_result_per_task (fun _ => false) true
    [⟨1, "A", false, false⟩, ⟨2, "B", true, false⟩, ⟨3, "C", false, true⟩]
    (((BatchDemo.demoEmits (fun _ => false) 0
        [⟨1, "A", false, false⟩, ⟨2, "B", true, false⟩, ⟨3, "C", false, true⟩]).map
      (fun e : BatchDemo.WorkerEmit => e.result)).map BatchDemo.CollectorEvent.recv)
    ((BatchDemo.demoEmits (fun _ => false) 0
        [⟨1, "A", false, false⟩, ⟨2, "B", true, false⟩, ⟨3, "C", false, true⟩]).map
      (fun e : BatchDemo.WorkerEmit => e.result))
    rfl (List.Perm.refl _)

/-- C5: a task whose `Execute` panics is converted by the worker's deferred
`recover` into a failed result whose error names that task's own identity
(`task <id> panic: <panic value>`), while any sibling task that executes
normally still yields its own success result — the panic never affects the
other workers' emissions. -/
theorem C5_panic_isolated_to_own_task (tasks : List BatchDemo.OrderTask)
    (adm : Nat → Bool) (j i : Nat) (t u : BatchDemo.OrderTask)
    (ht : tasks[j]? = some t) (hp : t.shouldPanic = true) (haj : adm j = false)
    (hu : tasks[i]? = some u) (hup : u.shouldPanic = false)
    (hue : u.shouldError = false) (hai : adm i = false) :
    (BatchDemo.demoEmits adm 0 tasks)[j]? =
      some ⟨⟨j, ⟨0, ""⟩,
        some (BatchDemo.panicMsg t.id (BatchDemo.panicVal t.id))⟩, true⟩ ∧
    (BatchDemo.demoEmits adm 0 tasks)[i]? =
      some ⟨⟨i, ⟨u.id, BatchDemo.orderLabel u.name u.id⟩, none⟩, true⟩ := by
  constructor
  · rw [BatchDemo.demoEmits_getElem, ht]
    simp [BatchDemo.demoWorker, BatchDemo.OrderTask.execute, hp, haj]
  · rw [BatchDemo.demoEmits_getElem, hu]
    simp [BatchDemo.demoWorker, BatchDemo.OrderTask.execute, hup, hue, hai]

/-- Witness for C5: three tasks with identities 1, 2, 3 where task 2 (at
sequence 1) panics — it yields a failed result tagged `task 2 panic: task 2
panicked`, while tasks 1 and 3 still yield their success results. -/
theorem C5_panic_isolated_to_own_task_witness :
    (BatchDemo.demoEmits (fun _ => false) 0
        [⟨1, "A", false, false⟩, ⟨2, "B", false, true⟩, ⟨3, "C", false, false⟩])[1]? =
      some ⟨⟨1, ⟨0, ""⟩,
        some (BatchDemo.panicMsg 2 (BatchDemo.panicVal 2))⟩, true⟩ ∧
    (BatchDemo.demoEmits (fun _ => false) 0
        [⟨1, "A", false, false⟩, ⟨2, "B", false, true⟩, ⟨3, "C", false, false⟩])[0]? =
      some ⟨⟨0, ⟨1, BatchDemo.orderLabel "A" 1⟩, none⟩, true⟩ ∧
    (BatchDemo.demoEmits (fun _ => false) 0
        [⟨1, "A", false, false⟩, ⟨2, "B", false, true⟩, ⟨3, "C", false, false⟩])[2]? =
      some ⟨⟨2, ⟨3, BatchDemo.orderLabel "C" 3⟩, none⟩, true⟩ :=
  ⟨(C5_panic_isolated_to_own_task
      [⟨1, "A", false, false⟩, ⟨2, "B", false, true⟩, ⟨3, "C", false, false⟩]
      (fun _ => false) 1 0 ⟨2, "B", false, true⟩ ⟨1, "A", false, false⟩
      rfl rfl rfl rfl rfl rfl rfl).1,
   (C5_panic_isolated_to_own_task
      [⟨1, "A", false, false⟩, ⟨2, "B", false, true⟩, ⟨3, "C", false, false⟩]
      (fun _ => false) 1 0 ⟨2, "B", false, true⟩ ⟨1, "A", false, false⟩
      rfl rfl rfl rfl rfl rfl rfl).2,
   (C5_panic_isolated_to_own_task
      [⟨1, "A", false, false⟩, ⟨2, "B", false, true⟩, ⟨3, "C", false, false⟩]
      (fun _ => false) 1 2 ⟨2, "B", false, true⟩ ⟨3, "C", false, false⟩
      rfl rfl rfl rfl rfl rfl rfl).2⟩

/-- C7: a worker whose shared cancellation scope has already expired at its
single non-blocking admission check emits a failed result carrying the
timeout-kind error `task <id> timeout` and `ranExecute = false`: `Execute`
is never invoked past the deadline. -/
theorem C7_expired_admission_skips_execute (tasks : List BatchDemo.OrderTask)
    (adm : Nat → Bool) (i : Nat) (t : BatchDemo.OrderTask)
    (ht : tasks[i]? = some t) (hexp : adm i = true) :
    (BatchDemo.demoEmits adm 0 tasks)[i]? =
      some ⟨⟨i, ⟨0, ""⟩, some (BatchDemo.timeoutMsg t.id)⟩, false⟩ := by
  rw [BatchDemo.demoEmits_getElem, ht]
  simp [BatchDemo.demoWorker, hexp]

/-- Witness for C7: a single task with identity 5 whose admission check
sees the scope already expired yields the timeout failure without running
`Execute`. -/
theorem C7_expired_admission_skips_execute_witness :
    (BatchDemo.demoEmits (fun _ => true) 0 [⟨5, "E", false, false⟩])[0]? =
      some ⟨⟨0, ⟨0, ""⟩, some (BatchDemo.timeoutMsg 5)⟩, false⟩ :=
  C7_expired_admission_skips_execute [⟨5, "E", false, false⟩] (fun _ => true) 0
    ⟨5, "E", false, false⟩ rfl rfl

/-- C8: the fast-fail variant `ProcessTasksSimple` (a separate operation
from the aggregate-report path) returns the first received failure as the
whole call's error, regardless of any events that would have followed —
partial successes already received are discarded and no aggregate report
is produced. -/
theorem C8_fast_fail_returns_first_error (tasks : List BatchDemo.OrderTask)
    (pre rest : List BatchDemo.SimpleEvent) (e : String)
    (hpre : ∀ x ∈ pre, ∃ o, x = BatchDemo.SimpleEvent.gotOrder o)
    (hlen : pre.length < tasks.length) :
    BatchDemo.processTasksSimple tasks
        (pre ++ BatchDemo.SimpleEvent.gotErr e :: rest) = .error e := by
  have h0 : ¬ tasks.length = 0 := by omega
  unfold BatchDemo.processTasksSimple
  rw [if_neg h0]
  exact BatchDemo.collectSimple_stop pre tasks.length rest e hpre hlen

/-- Witness for C8: three tasks where the task at sequence 1 fails; after
one success arrives, its error arrives and the call returns exactly that
error, without consuming the pending success of the task at sequence 2. -/
theorem C8_fast_fail_returns_first_error_witness :
    BatchDemo.processTasksSimple
        [⟨1, "A", false, false⟩, ⟨2, "B", true, false⟩, ⟨3, "C", false, false⟩]
        ([BatchDemo.SimpleEvent.gotOrder ⟨1, BatchDemo.orderLabel "A" 1⟩] ++
          BatchDemo.SimpleEvent.gotErr (BatchDemo.failedMsg 2) ::
            [BatchDemo.SimpleEvent.gotOrder ⟨3, BatchDemo.orderLabel "C" 3⟩]) =
      .error (BatchDemo.failedMsg 2) ∧
    BatchDemo.simpleWorker ⟨2, "B", true, false⟩ =
      BatchDemo.SimpleEmit.err (BatchDemo.failedMsg 2) :=
  ⟨C8_fast_fail_returns_first_error
      [⟨1, "A", false, false⟩, ⟨2, "B", true, false⟩, ⟨3, "C", false, false⟩]
      [BatchDemo.SimpleEvent.gotOrder ⟨1, BatchDemo.orderLabel "A" 1⟩]
      [BatchDemo.SimpleEvent.gotOrder ⟨3, BatchDemo.orderLabel "C" 3⟩]
      (BatchDemo.failedMsg 2)
      (fun x hx => by rw [List.mem_singleton] at hx; exact ⟨_, hx⟩)
      (by decide),
   rfl⟩

/-- C2 (amended): for the service batch operations, `SuccessTasks +
FailedTasks = len(Results)` holds exactly on the runs in which every
emitted result is collected before the deadline (then both sides equal
`TotalTasks`); when results are lost to the deadline the sum exceeds
`len(Results)` (see the counterexample).  For `ProcessTasks` the equality
is vacuous in this direction: a report exists only when everything was
collected. -/
theorem C2_counts_match_results_when_all_collected {τ δ : Type}
    (run : τ → Except String δ) (adm : Nat → Bool) (tasks : List τ)
    (events : List (BatchService.Event δ))
    (hperm : (BatchService.collect events).Perm
      (BatchService.emits run adm 0 tasks)) :
    (BatchService.batchRun run tasks events).successTasks +
        (BatchService.batchRun run tasks events).failedTasks =
      (BatchService.batchRun run tasks events).results.length := by
  by_cases h0 : tasks.length = 0
  · simp [BatchService.batchRun, h0]
  · have e2 : (BatchService.collect events).length = tasks.length := by
      have h := hperm.length_eq
      rw [BatchService.emits_length] at h
      exact h
    have e1 : (BatchService.sortById (BatchService.collect events)).length =
        (BatchService.collect events).length :=
      (List.perm_insertionSort BatchService.idLE _).length_eq
    have e3 : ((BatchService.collect events).filter (fun r => r.success)).length ≤
        (BatchService.collect events).length := List.length_filter_le _ _
    unfold BatchService.batchRun
    rw [if_neg h0]
    show ((BatchService.collect events).filter (fun r => r.success)).length +
        (tasks.length -
          ((BatchService.collect events).filter (fun r => r.success)).length) =
      (BatchService.sortById (BatchService.collect events)).length
    omega

/-- Witness for C2: two orders, both results received before the channel
closes; the report satisfies `SuccessTasks + FailedTasks = len(Results)`. -/
theorem C2_counts_match_results_witness :
    (BatchService.batchRun BatchService.processOrder
          [⟨1, "c1", "p1", 1, 1.0⟩, ⟨2, "c2", "p2", 1, 1.0⟩]
          [BatchService.Event.recv
            (BatchService.worker BatchService.processOrder false 0 ⟨1, "c1", "p1", 1, 1.0⟩),
           BatchService.Event.recv
            (BatchService.worker BatchService.processOrder false 1 ⟨2, "c2", "p2", 1, 1.0⟩),
           BatchService.Event.closed]).successTasks +
        (BatchService.batchRun BatchService.processOrder
          [⟨1, "c1", "p1", 1, 1.0⟩, ⟨2, "c2", "p2", 1, 1.0⟩]
          [BatchService.Event.recv
            (BatchService.worker BatchService.processOrder false 0 ⟨1, "c1", "p1", 1, 1.0⟩),
           BatchService.Event.recv
            (BatchService.worker BatchService.processOrder false 1 ⟨2, "c2", "p2", 1, 1.0⟩),
           BatchService.Event.closed]).failedTasks =
      (BatchService.batchRun BatchService.processOrder
          [⟨1, "c1", "p1", 1, 1.0⟩, ⟨2, "c2", "p2", 1, 1.0⟩]
          [BatchService.Event.recv
            (BatchService.worker BatchService.processOrder false 0 ⟨1, "c1", "p1", 1, 1.0⟩),
           BatchService.Event.recv
            (BatchService.worker BatchService.processOrder false 1 ⟨2, "c2", "p2", 1, 1.0⟩),
           BatchService.Event.closed]).results.length :=
  C2_counts_match_results_when_all_collected BatchService.processOrder
    (fun _ => false)
    [⟨1, "c1", "p1", 1, 1.0⟩, ⟨2, "c2", "p2", 1, 1.0⟩]
    [BatchService.Event.recv
      (BatchService.worker BatchService.processOrder false 0 ⟨1, "c1", "p1", 1, 1.0⟩),
     BatchService.Event.recv
      (BatchService.worker BatchService.processOrder false 1 ⟨2, "c2", "p2", 1, 1.0⟩),
     BatchService.Event.closed]
    (List.Perm.refl _)

/-- C2 counterexample: in `BatchProcessOrders`, when one of two results is
lost to the deadline the returned report has `SuccessTasks + FailedTasks =
2` but `len(Results) = 1`, refuting `succeeded + failed == len(results)`
"including when some results were lost to the deadline". -/
theorem C2_lost_result_counterexample :
    (BatchService.batchProcessOrders
          [⟨1, "c1", "p1", 1, 1.0⟩, ⟨2, "c2", "p2", 1, 1.0⟩]
          [BatchService.Event.recv
            (BatchService.worker BatchService.processOrder false 0 ⟨1, "c1", "p1", 1, 1.0⟩),
           BatchService.Event.timerFired]).successTasks +
        (BatchService.batchProcessOrders
          [⟨1, "c1", "p1", 1, 1.0⟩, ⟨2, "c2", "p2", 1, 1.0⟩]
          [BatchService.Event.recv
            (BatchService.worker BatchService.processOrder false 0 ⟨1, "c1", "p1", 1, 1.0⟩),
           BatchService.Event.timerFired]).failedTasks ≠
      (BatchService.batchProcessOrders
          [⟨1, "c1", "p1", 1, 1.0⟩, ⟨2, "c2", "p2", 1, 1.0⟩]
          [BatchService.Event.recv
            (BatchService.worker BatchService.processOrder false 0 ⟨1, "c1", "p1", 1, 1.0⟩),
           BatchService.Event.timerFired]).results.length := by
  decide

/-- C6: on any run of a service batch operation that collects every
emitted result (no batch-level deadline truncation), the `Results` of the
report are sorted ascending by their sequence (`ID`), strictly increasing,
ranging over exactly `{0, …, total-1}`: their `ID` projection is literally
`[0, 1, …, total-1]`.  (`ProcessTasks` with `KeepOrder` performs the same
`sort.Sort(BySeq(...))` step.) -/
theorem C6_results_sorted_by_sequence {τ δ : Type}
    (run : τ → Except String δ) (adm : Nat → Bool) (tasks : List τ)
    (events : List (BatchService.Event δ))
    (hperm : (BatchService.collect events).Perm
      (BatchService.emits run adm 0 tasks)) :
    (BatchService.batchRun run tasks events).results.map (fun r => r.id) =
      List.range tasks.length := by
  by_cases h0 : tasks.length = 0
  · rw [h0]
    simp [BatchService.batchRun, h0]
  · unfold BatchService.batchRun
    rw [if_neg h0]
    show (BatchService.sortById (BatchService.collect events)).map (fun r => r.id) =
      List.range tasks.length
    have hperm2 : ((BatchService.sortById (BatchService.collect events)).map
        (fun r => r.id)).Perm (List.range tasks.length) := by
      have p1 := (List.perm_insertionSort BatchService.idLE
        (BatchService.collect events)).map (fun r => r.id)
      have p2 := hperm.map (fun r => r.id)
      rw [BatchService.emits_map_id, ← List.range_eq_range'] at p2
      exact p1.trans p2
    have hsorted : ((BatchService.sortById (BatchService.collect events)).map
        (fun r => r.id)).Sorted (· ≤ ·) := by
      have hs : List.Sorted BatchService.idLE
          (BatchService.sortById (BatchService.collect events)) :=
        List.sorted_insertionSort BatchService.idLE (BatchService.collect events)
      exact List.pairwise_map.mpr (hs.imp (fun h => h))
    exact List.eq_of_perm_of_sorted hperm2 hsorted (List.sorted_le_range tasks.length)

/-- Witness for C6: two orders whose results arrive in reversed order
(worker 1 first); the report nevertheless lists them sorted with IDs
`[0, 1]`. -/
theorem C6_results_sorted_by_sequence_witness :
    (BatchService.batchRun BatchService.processOrder
        [⟨7, "c7", "p7", 1, 1.0⟩, ⟨8, "c8", "p8", 1, 1.0⟩]
        [BatchService.Event.recv
          (BatchService.worker BatchService.processOrder false 1 ⟨8, "c8", "p8", 1, 1.0⟩),
         BatchService.Event.recv
          (BatchService.worker BatchService.processOrder false 0 ⟨7, "c7", "p7", 1, 1.0⟩),
         BatchService.Event.closed]).results.map (fun r => r.id) =
      List.range 2 :=
  C6_results_sorted_by_sequence BatchService.processOrder (fun _ => false)
    [⟨7, "c7", "p7", 1, 1.0⟩, ⟨8, "c8", "p8", 1, 1.0⟩]
    [BatchService.Event.recv
      (BatchService.worker BatchService.processOrder false 1 ⟨8, "c8", "p8", 1, 1.0⟩),
     BatchService.Event.recv
      (BatchService.worker BatchService.processOrder false 0 ⟨7, "c7", "p7", 1, 1.0⟩),
     BatchService.Event.closed]
    (List.Perm.swap
      (BatchService.worker BatchService.processOrder false 0 ⟨7, "c7", "p7", 1, 1.0⟩)
      (BatchService.worker BatchService.processOrder false 1 ⟨8, "c8", "p8", 1, 1.0⟩)
      [])

/-- C9: on the empty task sequence every batch operation returns
immediately with the zero-valued report — `total = 0`, `succeeded = 0`,
`failed = 0`, empty results — and spawns no workers (the emission lists
are empty), for `ProcessTasks`, `ProcessTasksSimple` and the service
operations alike, regardless of the schedule. -/
theorem C9_empty_batch_zero_report (τ δ : Type) (run : τ → Except String δ)
    (adm : Nat → Bool) (keepOrder : Bool)
    (dev : List BatchDemo.CollectorEvent) (fev : List BatchDemo.SimpleEvent)
    (sev : List (BatchService.Event δ)) :
    BatchDemo.processTasks keepOrder [] dev = .ok ⟨[], [], 0, 0⟩ ∧
    BatchDemo.demoEmits adm 0 [] = [] ∧
    BatchDemo.processTasksSimple [] fev = .ok [] ∧
    BatchService.batchRun run [] sev = ⟨0, 0, 0, []⟩ ∧
    BatchService.emits run adm 0 [] = [] :=
  ⟨rfl, rfl, rfl, rfl, rfl⟩

/-- C10: in every report of the service batch operations (the generic
`batchRun` shared by orders, API calls and files), `FailedTasks` is
computed as `TotalTasks - SuccessTasks`, hence `SuccessTasks + FailedTasks
= TotalTasks` on every valid schedule (collected results being a
sub-multiset of the emitted ones), and `FailedTasks` counts both the
collected failures and the tasks whose results never appear in `Results`
because collection stopped at the deadline. -/
theorem C10_failed_is_total_minus_success {τ δ : Type}
    (run : τ → Except String δ) (adm : Nat → Bool) (tasks : List τ)
    (events : List (BatchService.Event δ))
    (hsub : (BatchService.collect events).Subperm
      (BatchService.emits run adm 0 tasks)) :
    (BatchService.batchRun run tasks events).failedTasks =
        (BatchService.batchRun run tasks events).totalTasks -
          (BatchService.batchRun run tasks events).successTasks ∧
    (BatchService.batchRun run tasks events).successTasks +
        (BatchService.batchRun run tasks events).failedTasks =
      (BatchService.batchRun run tasks events).totalTasks ∧
    (BatchService.batchRun run tasks events).failedTasks =
      ((BatchService.batchRun run tasks events).results.filter
          (fun r => !r.success)).length +
        ((BatchService.batchRun run tasks events).totalTasks -
          (BatchService.batchRun run tasks events).results.length) := by
  by_cases h0 : tasks.length = 0
  · simp [BatchService.batchRun, h0]
  · have hlen : (BatchService.collect events).length ≤ tasks.length := by
      have h := hsub.length_le
      rwa [BatchService.emits_length] at h
    have hfil : ((BatchService.collect events).filter (fun r => r.success)).length +
        ((BatchService.collect events).filter (fun r => !r.success)).length =
        (BatchService.collect events).length := by
      have h := BatchService.countP_not_add
        (fun r : BatchService.TaskResult δ => r.success) (BatchService.collect events)
      rw [List.countP_eq_length_filter, List.countP_eq_length_filter] at h
      exact h
    have hsort_len : (BatchService.sortById (BatchService.collect events)).length =
        (BatchService.collect events).length :=
      (List.perm_insertionSort BatchService.idLE _).length_eq
    have hsort_fil :
        ((BatchService.sortById (BatchService.collect events)).filter
            (fun r => !r.success)).length =
          ((BatchService.collect events).filter (fun r => !r.success)).length :=
      ((List.perm_insertionSort BatchService.idLE _).filter _).length_eq
    unfold BatchService.batchRun
    rw [if_neg h0]
    refine ⟨rfl, ?_, ?_⟩
    · show ((BatchService.collect events).filter (fun r => r.success)).length +
          (tasks.length -
            ((BatchService.collect events).filter (fun r => r.success)).length) =
        tasks.length
      omega
    · show tasks.length -
          ((BatchService.collect events).filter (fun r => r.success)).length =
        ((BatchService.sortById (BatchService.collect events)).filter
            (fun r => !r.success)).length +
          (tasks.length -
            (BatchService.sortById (BatchService.collect events)).length)
      omega

/-- Witness for C10: two orders, only worker 0's result collected before
the timer fires; the report counts the lost task in `FailedTasks`
(`1 = 2 - 1`), satisfies `SuccessTasks + FailedTasks = TotalTasks`, and
its single failed count is entirely due to the missing result. -/
theorem C10_failed_is_total_minus_success_witness :
    (BatchService.batchRun BatchService.processOrder
          [⟨3, "c3", "p3", 1, 1.0⟩, ⟨4, "c4", "p4", 1, 1.0⟩]
          [BatchService.Event.recv
            (BatchService.worker BatchService.processOrder false 0 ⟨3, "c3", "p3", 1, 1.0⟩),
           BatchService.Event.timerFired]).failedTasks =
        (BatchService.batchRun BatchService.processOrder
          [⟨3, "c3", "p3", 1, 1.0⟩, ⟨4, "c4", "p4", 1, 1.0⟩]
          [BatchService.Event.recv
            (BatchService.worker BatchService.processOrder false 0 ⟨3, "c3", "p3", 1, 1.0⟩),
           BatchService.Event.timerFired]).totalTasks -
          (BatchService.batchRun BatchService.processOrder
            [⟨3, "c3", "p3", 1, 1.0⟩, ⟨4, "c4", "p4", 1, 1.0⟩]
            [BatchService.Event.recv
              (BatchService.worker BatchService.processOrder false 0 ⟨3, "c3", "p3", 1, 1.0⟩),
             BatchService.Event.timerFired]).successTasks ∧
    (BatchService.batchRun BatchService.processOrder
          [⟨3, "c3", "p3", 1, 1.0⟩, ⟨4, "c4", "p4", 1, 1.0⟩]
          [BatchService.Event.recv
            (BatchService.worker BatchService.processOrder false 0 ⟨3, "c3", "p3", 1, 1.0⟩),
           BatchService.Event.timerFired]).successTasks +
        (BatchService.batchRun BatchService.processOrder
          [⟨3, "c3", "p3", 1, 1.0⟩, ⟨4, "c4", "p4", 1, 1.0⟩]
          [BatchService.Event.recv
            (BatchService.worker BatchService.processOrder false 0 ⟨3, "c3", "p3", 1, 1.0⟩),
           BatchService.Event.timerFired]).failedTasks =
      (BatchService.batchRun BatchService.processOrder
          [⟨3, "c3", "p3", 1, 1.0⟩, ⟨4, "c4", "p4", 1, 1.0⟩]
          [BatchService.Event.recv
            (BatchService.worker BatchService.processOrder false 0 ⟨3, "c3", "p3", 1, 1.0⟩),
           BatchService.Event.timerFired]).totalTasks ∧
    (BatchService.batchRun BatchService.processOrder
          [⟨3, "c3", "p3", 1, 1.0⟩, ⟨4, "c4", "p4", 1, 1.0⟩]
          [BatchService.Event.recv
            (BatchService.worker BatchService.processOrder false 0 ⟨3, "c3", "p3", 1, 1.0⟩),
           BatchService.Event.timerFired]).failedTasks =
      ((BatchService.batchRun BatchService.processOrder
            [⟨3, "c3", "p3", 1, 1.0⟩, ⟨4, "c4", "p4", 1, 1.0⟩]
            [BatchService.Event.recv
              (BatchService.worker BatchService.processOrder false 0 ⟨3, "c3", "p3", 1, 1.0⟩),
             BatchService.Event.timerFired]).results.filter
          (fun r => !r.success)).length +
        ((BatchService.batchRun BatchService.processOrder
            [⟨3, "c3", "p3", 1, 1.0⟩, ⟨4, "c4", "p4", 1, 1.0⟩]
            [BatchService.Event.recv
              (BatchService.worker BatchService.processOrder false 0 ⟨3, "c3", "p3", 1, 1.0⟩),
             BatchService.Event.timerFired]).totalTasks -
          (BatchService.batchRun BatchService.processOrder
            [⟨3, "c3", "p3", 1, 1.0⟩, ⟨4, "c4", "p4", 1, 1.0⟩]
            [BatchService.Event.recv
              (BatchService.worker BatchService.processOrder false 0 ⟨3, "c3", "p3", 1, 1.0⟩),
             BatchService.Event.timerFired]).results.length) :=
  C10_failed_is_total_minus_success BatchService.processOrder (fun _ => false)
    [⟨3, "c3", "p3", 1, 1.0⟩, ⟨4, "c4", "p4", 1, 1.0⟩]
    [BatchService.Event.recv
      (BatchService.worker BatchService.processOrder false 0 ⟨3, "c3", "p3", 1, 1.0⟩),
     BatchService.Event.timerFired]
    ⟨[BatchService.worker BatchService.processOrder false 0 ⟨3, "c3", "p3", 1, 1.0⟩],
     List.Perm.refl _,
     (List.nil_sublist
        [BatchService.worker BatchService.processOrder false 1 ⟨4, "c4", "p4", 1, 1.0⟩]).cons₂ _⟩
